import Mathlib

/-!
# Verification of `lib/ast.go` (mewn asset scanner)

Shallow embedding of the asset-scanning pass in `lib/ast.go`:

* `ParseCallExpr`, `ParseAssignment` — the two pattern matchers;
* `resolveStmt` — the body of the `ast.Inspect` callback for an
  `*ast.AssignStmt` node (lines 79–110 of `ast.go`);
* `processFile` — one file's tree walk;
* `scanFiles` / `GetReferencedAssets` — the whole scan.

Go AST nodes are embedded as the inductive `Expr` plus the record
`AstAssignStmt` (Go's `ast.AssignStmt` node, with its `Lhs`/`Rhs`
expression lists).  `ast.SelectorExpr.Sel` has static type `*ast.Ident`
in `go/ast`, so the selector's method part is embedded directly as a
`String` (the `reflect` check on `fn.Sel` in `ParseCallExpr` is always
true).  Go maps are embedded as association lists (`mapGet`/`mapUpd`)
with overwriting insertion, and the external collaborators
(`parser.ParseFile`, `filepath.Dir`, `filepath.Join`, `filepath.Abs`)
are parameters collected in an `Env` record, since they are outside the
repository; `parser.ParseFile`'s error names the file it was parsing.
-/

namespace Mewn

/-- Kinds of Go basic literals (`go/token`: INT, FLOAT, IMAG, CHAR, STRING). -/
inductive LitKind where
  | int
  | float
  | imag
  | char
  | string
deriving DecidableEq, Repr

/-- Go expressions, restricted to the node shapes `lib/ast.go` dispatches on
by dynamic type; every other expression shape is `other`. -/
inductive Expr where
  | ident (name : String)
  | selector (x : Expr) (sel : String)
  | basicLit (kind : LitKind) (value : String)
  | call (fn : Expr) (args : List Expr)
  | other

/-- Go's `ast.AssignStmt` node: lists of left- and right-hand expressions. -/
structure AstAssignStmt where
  Lhs : List Expr
  Rhs : List Expr

/-- Record `CallStmt` from `lib/ast.go`: receiver, method and unquoted path. -/
structure CallStmt where
  Obj : String
  Method : String
  Path : String
deriving DecidableEq, Repr

/-- Record `AssignStmt` from `lib/ast.go`: the parsed `lhs = obj.method(path)` shape. -/
structure AssignStmt where
  LHS : String
  RHS : CallStmt
deriving DecidableEq, Repr

/-- Record `Group` from `lib/ast.go`. -/
structure Group where
  Name : String
  LocalPath : String
  FullPath : String
deriving DecidableEq, Repr

/-- Record `ReferencedAsset` from `lib/ast.go`.  The Go field `Group *Group` is a
possibly-nil pointer, embedded as `Option Group` (groups are never mutated
after creation, so value semantics coincide with pointer semantics). -/
structure ReferencedAsset where
  Name : String
  AssetPath : String
  Group : Option Group
deriving DecidableEq, Repr

/-- Record `ReferencedAssets` from `lib/ast.go`: the per-directory bundle. -/
structure ReferencedAssets where
  Caller : String
  PackageName : String
  BaseDir : String
  Assets : List ReferencedAsset
  Groups : List Group
deriving DecidableEq, Repr

/-- Method `ReferencedAssets.HasAsset` from `lib/ast.go` (lines 39–46): true iff an
asset with the given name is already in `r.Assets`.  Note: this helper is
defined in the source but never called by `GetReferencedAssets`. -/
def ReferencedAssets.HasAsset (r : ReferencedAssets) (name : String) : Bool :=
  r.Assets.any (fun asset => asset.Name == name)

/-- The double-quote character, codepoint 34. -/
def quoteChar : Char := Char.ofNat 34

/-- Function `strings.Replace` as called on line 183 with the one-character
quote pattern and an empty replacement: removes every occurrence of the
double-quote character from `value` (not merely the surrounding quotes). -/
def replaceQuotes (value : String) : String :=
  String.mk (value.data.filter (fun c => c != quoteChar))

/-- Function `ParseCallExpr` from `lib/ast.go` (lines 161–189).  The Go function takes
an `*ast.CallExpr` with fields `Fun` and `Args`; those two fields are the two
arguments here.  It requires exactly one argument, a `SelectorExpr` callee
whose `X` is an identifier, and a `BasicLit` argument (of any literal kind:
the source checks only the dynamic type `*ast.BasicLit`, never the literal's
kind), and strips all double quotes from the literal's source text. -/
def ParseCallExpr (fn : Expr) (args : List Expr) : Option CallStmt :=
  if args.length ≠ 1 then none else
  match fn, args with
  | Expr.selector (Expr.ident obj) fnCallName, [Expr.basicLit _ v] =>
      some { Obj := obj, Method := fnCallName, Path := replaceQuotes v }
  | _, _ => none

/-- The `lhs` variable of `ParseAssignment` (lines 131–136): `var lhs string`
starts at the zero value `""` and is assigned only when the LHS is exactly
one `*ast.Ident`. -/
def lhsIdent (astmt : AstAssignStmt) : String :=
  match astmt.Lhs with
  | [Expr.ident name] => name
  | _ => ""

/-- Function `ParseAssignment` from `lib/ast.go` (lines 130–147).  The LHS check only
guards the assignment to the `lhs` variable (`lhsIdent`); whether a match is
produced is decided solely by the RHS being a single `*ast.CallExpr`
accepted by `ParseCallExpr`. -/
def ParseAssignment (astmt : AstAssignStmt) : Option AssignStmt :=
  match astmt.Rhs with
  | [Expr.call fn args] =>
      match ParseCallExpr fn args with
      | some call => some { LHS := lhsIdent astmt, RHS := call }
      | none => none
  | _ => none

/-- Lookup in an association list, embedding Go map indexing. -/
def mapGet {α : Type} (m : List (String × α)) (k : String) : Option α :=
  match m with
  | [] => none
  | (k₁, v₁) :: rest => if k₁ = k then some v₁ else mapGet rest k

/-- Overwriting insertion in an association list, embedding Go map store. -/
def mapUpd {α : Type} (m : List (String × α)) (k : String) (v : α) :
    List (String × α) :=
  match m with
  | [] => [(k, v)]
  | (k₁, v₁) :: rest =>
      if k₁ = k then (k, v) :: rest else (k₁, v₁) :: mapUpd rest k v

/-- Errors of the scan.  `parseError f` stands for the error returned by
`parser.ParseFile` for file `f` (its message carries the file's positions);
`unknownCall m` is the unknown-call-to-mewn error built by `fmt.Errorf` on
line 98 from the method name `m`. -/
inductive ScanError where
  | parseError (filename : String)
  | unknownCall (method : String)
deriving DecidableEq, Repr

/-- A successfully parsed Go file, as `GetReferencedAssets` consumes it: the
package name (from the `*ast.File` root node, which `ast.Inspect` visits
first) and the file's `*ast.AssignStmt` nodes in depth-first visit order.
An assignment node's children contain no further assignment or file nodes,
so a flat list is a faithful picture of the walk. -/
structure GoFile where
  packageName : String
  stmts : List AstAssignStmt

/-- The external collaborators used by `GetReferencedAssets`:
`parser.ParseFile`, `filepath.Dir`, `filepath.Join` and `filepath.Abs`
(`abs` returns `none` exactly when `filepath.Abs` returns an error). -/
structure Env where
  parseFile : String → Except ScanError GoFile
  dir : String → String
  join : String → String → String
  abs : String → Option String

/-- The `ast.Inspect` callback body for one `*ast.AssignStmt` node
(lines 79–110 of `ast.go`).  The state is the current bundle, the scan-wide
`groups` table, and the per-file-iteration `err` variable.  The callback's
`return false` cases (failed `filepath.Abs`, unknown `mewn.*` method) only
prune the assignment's own sub-expressions, which contain no further
assignment nodes, so they do not change the walk state; the unknown-method
case additionally assigns the loop's `err` variable (the third component),
which the caller never examines after the walk. -/
def resolveStmt (env : Env) (filename : String)
    (acc : ReferencedAssets × List (String × Group) × Option ScanError)
    (x : AstAssignStmt) :
    ReferencedAssets × List (String × Group) × Option ScanError :=
  let thisAssetBundle := acc.1
  let groups := acc.2.1
  let errv := acc.2.2
  match ParseAssignment x with
  | none => (thisAssetBundle, groups, errv)
  | some thisAsset =>
    if thisAsset.RHS.Obj = "mewn" then
      match thisAsset.RHS.Method with
      | "Group" =>
          let baseDir := env.dir filename
          match env.abs (env.join baseDir thisAsset.RHS.Path) with
          | none => (thisAssetBundle, groups, errv)
          | some fullPath =>
              let thisGroup : Group :=
                { Name := thisAsset.LHS, LocalPath := thisAsset.RHS.Path,
                  FullPath := fullPath }
              ({ thisAssetBundle with
                   Groups := thisAssetBundle.Groups ++ [thisGroup] },
               mapUpd groups thisAsset.LHS thisGroup, errv)
      | "String" | "MustString" | "Bytes" | "MustBytes" =>
          let newAsset : ReferencedAsset :=
            { Name := thisAsset.RHS.Path, AssetPath := thisAsset.RHS.Path,
              Group := none }
          ({ thisAssetBundle with
               Assets := thisAssetBundle.Assets ++ [newAsset] },
           groups, errv)
      | m => (thisAssetBundle, groups, some (ScanError.unknownCall m))
    else
      match mapGet groups thisAsset.RHS.Obj with
      | some group =>
          let newAsset : ReferencedAsset :=
            { Name := thisAsset.RHS.Path, AssetPath := thisAsset.RHS.Path,
              Group := some group }
          ({ thisAssetBundle with
               Assets := thisAssetBundle.Assets ++ [newAsset] },
           groups, errv)
      | none => (thisAssetBundle, groups, errv)

/-- One file's `ast.Inspect` walk: the `*ast.File` root node sets the
bundle's `PackageName` (lines 75–77), then every assignment node is handled
by `resolveStmt`.  The `err` component starts at `none` (the `err` bound by
`parser.ParseFile` was nil on this path). -/
def processFile (env : Env) (filename : String) (file : GoFile)
    (thisAssetBundle : ReferencedAssets) (groups : List (String × Group)) :
    ReferencedAssets × List (String × Group) × Option ScanError :=
  let bundle := { thisAssetBundle with PackageName := file.packageName }
  file.stmts.foldl (resolveStmt env filename) (bundle, groups, none)

/-- One iteration of the file loop after a successful parse (lines 63–114
minus the `result` append): get-or-create the directory's bundle (new
bundles carry `Caller := filename` and zero values elsewhere, line 69),
walk the file, and store the mutated bundle back under its directory.
`(processFile ...).2.2` is the `err` variable after the walk; the source
never reads it (it is re-bound by the next `parser.ParseFile` and the
function finally returns a literal nil error), so it is dropped here. -/
def scanStep (env : Env) (filename : String) (file : GoFile)
    (assetMap : List (String × ReferencedAssets))
    (groups : List (String × Group)) :
    List (String × ReferencedAssets) × List (String × Group) :=
  let baseDir := env.dir filename
  let thisAssetBundle : ReferencedAssets :=
    match mapGet assetMap baseDir with
    | some b => b
    | none =>
        { Caller := filename, PackageName := "", BaseDir := baseDir,
          Assets := [], Groups := [] }
  let done := processFile env filename file thisAssetBundle groups
  (mapUpd assetMap baseDir done.1, done.2.1)

/-- The file loop of `GetReferencedAssets` (lines 56–115).  `resultDirs`
records, per processed file in order, the directory whose bundle pointer the
source appends to `result` (line 114: the append happens for every file,
whether or not the directory was seen before).  A parse failure returns that
file's parse error immediately (lines 59–61). -/
def scanFiles (env : Env) (filenames : List String)
    (resultDirs : List String)
    (assetMap : List (String × ReferencedAssets))
    (groups : List (String × Group)) :
    Except ScanError (List String × List (String × ReferencedAssets)) :=
  match filenames with
  | [] => Except.ok (resultDirs, assetMap)
  | filename :: rest =>
      match env.parseFile filename with
      | Except.error e => Except.error e
      | Except.ok file =>
          let p := scanStep env filename file assetMap groups
          scanFiles env rest (resultDirs ++ [env.dir filename]) p.1 p.2

/-- Zero-value bundle, standing for the unreachable default when a recorded
directory is looked up in the final map (every recorded directory is a key,
see `scanFiles_dirs_isSome`). -/
def defaultBundle : ReferencedAssets :=
  { Caller := "", PackageName := "", BaseDir := "", Assets := [], Groups := [] }

/-- Function `GetReferencedAssets` from `lib/ast.go` (lines 49–117).  The Go `result`
slice holds pointers to the per-directory bundles, so the returned values
reflect all mutations made during the whole scan: the returned list is the
per-file directory record resolved through the final directory map. -/
def GetReferencedAssets (env : Env) (filenames : List String) :
    Except ScanError (List ReferencedAssets) :=
  match scanFiles env filenames [] [] [] with
  | Except.error e => Except.error e
  | Except.ok (resultDirs, assetMap) =>
      Except.ok (resultDirs.map (fun d => (mapGet assetMap d).getD defaultBundle))

/-- Directory part of a slash-separated path: everything before the last
slash (a concrete stand-in for `filepath.Dir`, used only in test
environments; the theorems quantify over the environment). -/
def dirOf (f : String) : String :=
  String.mk (((f.data.reverse.dropWhile (fun c => c != '/')).drop 1).reverse)

/-- A concrete test environment from a parse table and a set of paths on
which `filepath.Abs` fails. -/
def mkEnv (tbl : List (String × GoFile)) (absFails : List String) : Env where
  parseFile f :=
    match mapGet tbl f with
    | some gf => Except.ok gf
    | none => Except.error (ScanError.parseError f)
  dir := dirOf
  join d p := d ++ "/" ++ p
  abs p := if absFails.contains p then none else some p

/-- Source text of a Go string literal: the value surrounded by quotes. -/
def quoted (s : String) : String :=
  String.mk (quoteChar :: s.data ++ [quoteChar])

/-- A statement `x = recv.method("arg")`. -/
def callAssign (recv method arg : String) : AstAssignStmt :=
  { Lhs := [Expr.ident "x"],
    Rhs := [Expr.call (Expr.selector (Expr.ident recv) method)
              [Expr.basicLit LitKind.string (quoted arg)]] }

/-- A statement `lhs = recv.method("arg")` with an explicit LHS name. -/
def callAssignTo (lhs recv method arg : String) : AstAssignStmt :=
  { Lhs := [Expr.ident lhs],
    Rhs := [Expr.call (Expr.selector (Expr.ident recv) method)
              [Expr.basicLit LitKind.string (quoted arg)]] }

example : replaceQuotes (quoted "a.txt") = "a.txt" := by decide

example :
    ParseAssignment (callAssign "mewn" "String" "a.txt") =
      some { LHS := "x", RHS := { Obj := "mewn", Method := "String", Path := "a.txt" } } := by
  decide

example : dirOf "d/m.go" = "d" := by decide

/-! ## Association-list map lemmas -/

theorem mapGet_mapUpd_self {α : Type} (m : List (String × α)) (k : String) (v : α) :
    mapGet (mapUpd m k v) k = some v := by
  induction m with
  | nil => simp [mapUpd, mapGet]
  | cons hd tl ih =>
      obtain ⟨k₁, v₁⟩ := hd
      by_cases h : k₁ = k
      · simp [mapUpd, mapGet, h]
      · simp [mapUpd, mapGet, h, ih]

theorem mapGet_mapUpd_ne {α : Type} (m : List (String × α)) (k k₂ : String) (v : α)
    (h : k₂ ≠ k) : mapGet (mapUpd m k v) k₂ = mapGet m k₂ := by
  induction m with
  | nil => simp [mapUpd, mapGet, Ne.symm h]
  | cons hd tl ih =>
      obtain ⟨k₁, v₁⟩ := hd
      by_cases hk : k₁ = k
      · subst hk
        simp [mapUpd, mapGet, Ne.symm h]
      · simp [mapUpd, mapGet, hk, ih]

theorem mapGet_mapUpd_isSome {α : Type} (m : List (String × α)) (k k₂ : String) (v : α)
    (h : (mapGet m k₂).isSome = true) :
    (mapGet (mapUpd m k v) k₂).isSome = true := by
  by_cases hk : k₂ = k
  · subst hk; simp [mapGet_mapUpd_self]
  · rw [mapGet_mapUpd_ne m k k₂ v hk]; exact h

/-! ## Field preservation through the walk

The walk only ever touches a bundle's `Assets` and `Groups`; `Caller` and
`BaseDir` are fixed at creation and `PackageName` is set once per file visit
at the `*ast.File` node. -/

theorem resolveStmt_preserves (env : Env) (fn : String)
    (acc : ReferencedAssets × List (String × Group) × Option ScanError)
    (x : AstAssignStmt) :
    (resolveStmt env fn acc x).1.Caller = acc.1.Caller ∧
    (resolveStmt env fn acc x).1.PackageName = acc.1.PackageName ∧
    (resolveStmt env fn acc x).1.BaseDir = acc.1.BaseDir := by
  unfold resolveStmt
  cases ParseAssignment x with
  | none => exact ⟨rfl, rfl, rfl⟩
  | some t =>
      by_cases h : t.RHS.Obj = "mewn" <;> simp only [h, if_true, if_false, reduceIte]
      · split
        · split
          · exact ⟨rfl, rfl, rfl⟩
          · exact ⟨rfl, rfl, rfl⟩
        · exact ⟨rfl, rfl, rfl⟩
        · exact ⟨rfl, rfl, rfl⟩
        · exact ⟨rfl, rfl, rfl⟩
        · exact ⟨rfl, rfl, rfl⟩
        · exact ⟨rfl, rfl, rfl⟩
      · split
        · exact ⟨rfl, rfl, rfl⟩
        · exact ⟨rfl, rfl, rfl⟩

theorem foldResolve_preserves (env : Env) (fn : String) (stmts : List AstAssignStmt) :
    ∀ acc : ReferencedAssets × List (String × Group) × Option ScanError,
      (stmts.foldl (resolveStmt env fn) acc).1.Caller = acc.1.Caller ∧
      (stmts.foldl (resolveStmt env fn) acc).1.PackageName = acc.1.PackageName ∧
      (stmts.foldl (resolveStmt env fn) acc).1.BaseDir = acc.1.BaseDir := by
  induction stmts with
  | nil => intro acc; exact ⟨rfl, rfl, rfl⟩
  | cons s rest ih =>
      intro acc
      have h₁ := resolveStmt_preserves env fn acc s
      have h₂ := ih (resolveStmt env fn acc s)
      simp only [List.foldl_cons]
      exact ⟨h₂.1.trans h₁.1, h₂.2.1.trans h₁.2.1, h₂.2.2.trans h₁.2.2⟩

theorem processFile_fields (env : Env) (fn : String) (file : GoFile)
    (b : ReferencedAssets) (groups : List (String × Group)) :
    (processFile env fn file b groups).1.Caller = b.Caller ∧
    (processFile env fn file b groups).1.BaseDir = b.BaseDir ∧
    (processFile env fn file b groups).1.PackageName = file.packageName := by
  unfold processFile
  have h := foldResolve_preserves env fn file.stmts
    ({ b with PackageName := file.packageName }, groups, none)
  exact ⟨h.1, h.2.2, h.2.1⟩

/-! ## Bundle map invariants of the scan -/

/-- Every bundle stored in the directory map sits under its own `BaseDir`. -/
def MapOk (m : List (String × ReferencedAssets)) : Prop :=
  ∀ k b, mapGet m k = some b → b.BaseDir = k

theorem mapOk_nil : MapOk [] := by
  intro k b hb
  simp [mapGet] at hb

theorem mapOk_upd (m : List (String × ReferencedAssets)) (k : String)
    (v : ReferencedAssets) (hm : MapOk m) (hv : v.BaseDir = k) :
    MapOk (mapUpd m k v) := by
  intro k₂ b hb
  by_cases h : k₂ = k
  · subst h; rw [mapGet_mapUpd_self] at hb; cases hb; exact hv
  · rw [mapGet_mapUpd_ne _ _ _ _ h] at hb; exact hm _ _ hb

theorem scanStep_mapOk (env : Env) (fn : String) (file : GoFile)
    (m : List (String × ReferencedAssets)) (g : List (String × Group))
    (hm : MapOk m) : MapOk (scanStep env fn file m g).1 := by
  unfold scanStep
  cases hb : mapGet m (env.dir fn) with
  | none =>
      simp only [hb]
      exact mapOk_upd _ _ _ hm (processFile_fields env fn file _ g).2.1
  | some b =>
      simp only [hb]
      refine mapOk_upd _ _ _ hm ?_
      rw [(processFile_fields env fn file b g).2.1]
      exact hm _ _ hb

theorem scanStep_isSome_self (env : Env) (fn : String) (file : GoFile)
    (m : List (String × ReferencedAssets)) (g : List (String × Group)) :
    (mapGet (scanStep env fn file m g).1 (env.dir fn)).isSome = true := by
  unfold scanStep
  cases hb : mapGet m (env.dir fn) <;> simp [hb, mapGet_mapUpd_self]

theorem scanStep_isSome_mono (env : Env) (fn : String) (file : GoFile)
    (m : List (String × ReferencedAssets)) (g : List (String × Group)) (k : String)
    (h : (mapGet m k).isSome = true) :
    (mapGet (scanStep env fn file m g).1 k).isSome = true := by
  unfold scanStep
  cases hb : mapGet m (env.dir fn) <;> simp only [hb] <;>
    exact mapGet_mapUpd_isSome _ _ _ _ h

/-- A successful run of the file loop: the recorded directory list is the
incoming record followed by each file's directory in input order, the final
map still stores every bundle under its `BaseDir`, keys are never removed,
and every processed file's directory is a key of the final map. -/
theorem scanFiles_ok_spec (env : Env) (files : List String) :
    ∀ dirs m g dirs' m',
      scanFiles env files dirs m g = Except.ok (dirs', m') →
      MapOk m →
      dirs' = dirs ++ files.map env.dir ∧
      MapOk m' ∧
      (∀ k, (mapGet m k).isSome = true → (mapGet m' k).isSome = true) ∧
      (∀ f ∈ files, (mapGet m' (env.dir f)).isSome = true) := by
  induction files with
  | nil =>
      intro dirs m g dirs' m' h hm
      simp only [scanFiles, Except.ok.injEq, Prod.mk.injEq] at h
      obtain ⟨h1, h2⟩ := h
      subst h1; subst h2
      exact ⟨by simp, hm, fun k hk => hk, by simp⟩
  | cons f rest ih =>
      intro dirs m g dirs' m' h hm
      cases hpf : env.parseFile f with
      | error e => rw [scanFiles, hpf] at h; cases h
      | ok file =>
          rw [scanFiles, hpf] at h
          have hstep := ih (dirs ++ [env.dir f])
            (scanStep env f file m g).1 (scanStep env f file m g).2 dirs' m' h
            (scanStep_mapOk env f file m g hm)
          refine ⟨by rw [hstep.1]; simp, hstep.2.1, ?_, ?_⟩
          · intro k hk
            exact hstep.2.2.1 k (scanStep_isSome_mono env f file m g k hk)
          · intro f' hf'
            rcases List.mem_cons.mp hf' with hf' | hf'
            · rw [hf']
              exact hstep.2.2.1 _ (scanStep_isSome_self env f file m g)
            · exact hstep.2.2.2 f' hf'

/-- If the file at index `i` fails to parse and every earlier file parses,
the file loop returns that file's parse error (whatever the accumulated
state is). -/
theorem scanFiles_parse_error (env : Env) (files : List String) :
    ∀ (i : Nat) (f : String) (e : ScanError) dirs m g,
      files[i]? = some f →
      env.parseFile f = Except.error e →
      (∀ (j : Nat) (fj : String), j < i → files[j]? = some fj →
        ∃ gf, env.parseFile fj = Except.ok gf) →
      scanFiles env files dirs m g = Except.error e := by
  induction files with
  | nil => intro i f e dirs m g h1; simp at h1
  | cons f₀ rest ih =>
      intro i f e dirs m g h1 h2 h3
      cases i with
      | zero =>
          simp only [List.getElem?_cons_zero, Option.some.injEq] at h1
          subst h1
          rw [scanFiles, h2]
      | succ j =>
          obtain ⟨gf, hgf⟩ := h3 0 f₀ (Nat.succ_pos j) (by simp)
          rw [scanFiles, hgf]
          exact ih j f e _ _ _ (by simpa using h1) h2
            (fun j' fj hj hfj => h3 (j' + 1) fj (by omega) (by simpa using hfj))

/-! ## ParseAssignment characterization helpers -/

theorem parseAssignment_isSome_lhs (l₁ l₂ : List Expr) (r : List Expr) :
    (ParseAssignment { Lhs := l₁, Rhs := r }).isSome =
      (ParseAssignment { Lhs := l₂, Rhs := r }).isSome := by
  match r with
  | [] => rfl
  | [Expr.ident _] => rfl
  | [Expr.selector _ _] => rfl
  | [Expr.basicLit _ _] => rfl
  | [Expr.other] => rfl
  | [Expr.call fn args] =>
      cases h : ParseCallExpr fn args <;> simp [ParseAssignment, h]
  | e :: e₂ :: es => cases e <;> rfl

theorem parseAssignment_LHS (a : AstAssignStmt) (r : AssignStmt)
    (h : ParseAssignment a = some r) : r.LHS = lhsIdent a := by
  unfold ParseAssignment at h
  split at h
  · split at h
    · cases h; rfl
    · cases h
  · cases h

theorem lhsIdent_of_not_single_ident (a : AstAssignStmt)
    (h : ∀ n, a.Lhs ≠ [Expr.ident n]) : lhsIdent a = "" := by
  unfold lhsIdent
  split
  · rename_i n heq; exact absurd heq (h n)
  · rfl

/-! ## Claim C1 -/

/-- Claim C1 scenario: one file declaring `mewn.String("a.txt")` twice. -/
def envC1 : Env :=
  mkEnv [("d/m.go",
    { packageName := "main",
      stmts := [callAssign "mewn" "String" "a.txt",
                callAssign "mewn" "String" "a.txt"] })] []

/-- Claim C1: the claim says a second asset with an already-present name is
silently dropped, so two same-name declarations in one directory yield
exactly one `AssetReference`.  The code appends without consulting
`HasAsset`: both references are kept.  This theorem evaluates the scan at
the failing input — the resulting bundle holds two `AssetReference`s named
`"a.txt"` — and also records that `HasAsset` already held after the first
append, i.e. the check the claim (and the dead `HasAsset` helper) describes
would have suppressed the second one. -/
theorem C1_duplicate_asset_names_kept :
    GetReferencedAssets envC1 ["d/m.go"] =
      Except.ok [{ Caller := "d/m.go", PackageName := "main", BaseDir := "d",
                   Assets := [{ Name := "a.txt", AssetPath := "a.txt", Group := none },
                              { Name := "a.txt", AssetPath := "a.txt", Group := none }],
                   Groups := [] }] ∧
    ReferencedAssets.HasAsset
      { Caller := "d/m.go", PackageName := "main", BaseDir := "d",
        Assets := [{ Name := "a.txt", AssetPath := "a.txt", Group := none }],
        Groups := [] } "a.txt" = true := by
  constructor
  · rfl
  · rfl

/-! ## Claim C2 -/

/-- Claim C2 scenario: one file whose only statement calls `mewn.Unknown("x")`. -/
def fileC2 : GoFile :=
  { packageName := "main", stmts := [callAssign "mewn" "Unknown" "x"] }

/-- Claim C2 environment. -/
def envC2 : Env := mkEnv [("d/m.go", fileC2)] []

/-- Claim C2: the claim says an unknown `mewn.*` method makes the whole scan fail
with an error naming the method.  In the code, line 98 assigns
`fmt.Errorf("unknown call to mewn.%s", ...)` to the loop's `err` variable,
but nothing reads that variable after the walk and the function returns
`result, nil`: the scan succeeds.  The first conjunct evaluates the scan at
the failing input (a normal, error-free result); the second shows that the
walk did construct the unknown-method error — it is simply dropped. -/
theorem C2_unknown_method_error_dropped :
    GetReferencedAssets envC2 ["d/m.go"] =
      Except.ok [{ Caller := "d/m.go", PackageName := "main", BaseDir := "d",
                   Assets := [], Groups := [] }] ∧
    (processFile envC2 "d/m.go" fileC2
        { Caller := "d/m.go", PackageName := "", BaseDir := "d",
          Assets := [], Groups := [] } []).2.2 =
      some (ScanError.unknownCall "Unknown") := by
  constructor
  · rfl
  · rfl

/-! ## Claim C5 -/

/-- Claim C5 counterexample input: LHS is a selector `a.b`, not an identifier;
RHS is `mewn.String("x")`. -/
def stmtC5 : AstAssignStmt :=
  { Lhs := [Expr.selector (Expr.ident "a") "b"],
    Rhs := [Expr.call (Expr.selector (Expr.ident "mewn") "String")
              [Expr.basicLit LitKind.string (quoted "x")]] }

/-- Claim C5 counterexample: the claim says a left-hand side that is not a simple
identifier yields no match; the code still matches (with `LHS = ""`). -/
theorem C5_counterexample_non_ident_lhs_matches :
    ParseAssignment stmtC5 =
      some { LHS := "", RHS := { Obj := "mewn", Method := "String", Path := "x" } } := by
  rfl

/-- Claim C5 (amended): the matcher requires exactly one right-hand call
expression accepted by `ParseCallExpr` — multi-value assignments and
non-call right-hand sides are rejected — but the left-hand side does not
gate the match: whether a match is produced is independent of the LHS, and
when the LHS is not a single simple identifier the extracted identifier is
the empty string. -/
theorem C5_amended_rhs_alone_decides_match (a : AstAssignStmt) :
    ((∀ fn args, a.Rhs ≠ [Expr.call fn args]) → ParseAssignment a = none) ∧
    (∀ lhs₂ : List Expr,
      (ParseAssignment { Lhs := lhs₂, Rhs := a.Rhs }).isSome =
        (ParseAssignment a).isSome) ∧
    ((∀ n, a.Lhs ≠ [Expr.ident n]) →
      ∀ r, ParseAssignment a = some r → r.LHS = "") := by
  refine ⟨?_, ?_, ?_⟩
  · intro h
    unfold ParseAssignment
    split
    · rename_i fn args heq
      exact absurd heq (h fn args)
    · rfl
  · intro lhs₂
    obtain ⟨al, ar⟩ := a
    exact parseAssignment_isSome_lhs lhs₂ al ar
  · intro h r hr
    rw [parseAssignment_LHS a r hr]
    exact lhsIdent_of_not_single_ident a h

/-- Claim C5 witness: the amended theorem applied at concrete inputs — a
non-call RHS yields no match, and the counterexample statement's match
carries the empty LHS. -/
theorem C5_amended_witness :
    ParseAssignment { Lhs := [Expr.other], Rhs := ([Expr.other] : List Expr) } = none ∧
    ({ LHS := "", RHS := { Obj := "mewn", Method := "String", Path := "x" } } :
      AssignStmt).LHS = "" := by
  constructor
  · refine (C5_amended_rhs_alone_decides_match ⟨[Expr.other], [Expr.other]⟩).1 ?_
    intro fn args heq
    injection heq with h1 h2
    exact Expr.noConfusion h1
  · refine (C5_amended_rhs_alone_decides_match stmtC5).2.2 ?_
      { LHS := "", RHS := { Obj := "mewn", Method := "String", Path := "x" } } rfl
    intro n heq
    injection heq with h1 h2
    exact Expr.noConfusion h1

/-! ## Claim C7 -/

/-- Claim C7 counterexample: the claim says only a literal string token is
accepted; the code checks just the dynamic type `*ast.BasicLit`, so an INT
literal such as `42` also matches. -/
theorem C7_counterexample_int_literal_matches :
    ParseCallExpr (Expr.selector (Expr.ident "mewn") "String")
        [Expr.basicLit LitKind.int "42"] =
      some { Obj := "mewn", Method := "String", Path := "42" } := by
  rfl

/-- Claim C7 (amended): the Call-Pattern Matcher returns a triple exactly when
the callee is `obj.method` with an identifier receiver and the single
argument is a basic literal of any kind (string, int, float, char or
imaginary — the source never inspects the literal's kind), and the
extracted path is the literal's source text with every double-quote
character removed (which coincides with stripping the surrounding quotes
for an ordinary string literal containing no interior quote characters). -/
theorem C7_amended_any_basic_literal (fn : Expr) (args : List Expr) (c : CallStmt) :
    ParseCallExpr fn args = some c ↔
      ∃ obj sel k v, fn = Expr.selector (Expr.ident obj) sel ∧
        args = [Expr.basicLit k v] ∧
        c = { Obj := obj, Method := sel, Path := replaceQuotes v } := by
  constructor
  · intro h
    unfold ParseCallExpr at h
    split at h
    · cases h
    · split at h
      · rename_i x₀ obj sel k v hcond
        cases h
        exact ⟨obj, sel, k, v, rfl, rfl, rfl⟩
      · cases h
  · rintro ⟨obj, sel, k, v, rfl, rfl, rfl⟩
    rfl

/-- Source text of a Go string literal with an interior escaped quote:
quote, letter a, backslash, quote, letter b, quote. -/
def litC7 : String :=
  String.mk [quoteChar, 'a', '\\', quoteChar, 'b', quoteChar]

/-- Claim C7 witness: the amended characterization applied to a concrete call
whose string literal has an interior escaped quote (`litC7`): the
extracted path keeps the backslash but loses every quote character — all
quotes are removed, not just the surrounding ones. -/
theorem C7_amended_witness :
    ParseCallExpr (Expr.selector (Expr.ident "mewn") "Bytes")
        [Expr.basicLit LitKind.string litC7] =
      some { Obj := "mewn", Method := "Bytes",
             Path := String.mk ['a', '\\', 'b'] } := by
  refine (C7_amended_any_basic_literal _ _ _).mpr ?_
  exact ⟨"mewn", "Bytes", LitKind.string, litC7, rfl, rfl, by decide⟩

/-! ## Claim C6 -/

/-- Claim C6: for a matched call whose receiver is not the root token `mewn`:
if the receiver is registered in the scan-wide group table (which is
populated by earlier-processed `mewn.Group` statements, in processing
order across files), exactly one `AssetReference` named by the call's path
argument and owned by the registered group is appended to the current
bundle; if the receiver is not (yet) registered — in particular when the
item call is processed before any `Group` declaration of that name — the
statement is silently ignored and the state is unchanged. -/
theorem C6_group_item_resolution (env : Env) (fn : String)
    (b : ReferencedAssets) (tbl : List (String × Group)) (errv : Option ScanError)
    (s : AstAssignStmt) (t : AssignStmt)
    (hp : ParseAssignment s = some t) (hobj : t.RHS.Obj ≠ "mewn") :
    (∀ gr, mapGet tbl t.RHS.Obj = some gr →
      resolveStmt env fn (b, tbl, errv) s =
        ({ b with Assets := b.Assets ++
            [{ Name := t.RHS.Path, AssetPath := t.RHS.Path, Group := some gr }] },
         tbl, errv)) ∧
    (mapGet tbl t.RHS.Obj = none →
      resolveStmt env fn (b, tbl, errv) s = (b, tbl, errv)) := by
  constructor
  · intro gr hgr
    simp [resolveStmt, hp, hobj, hgr]
  · intro hgr
    simp [resolveStmt, hp, hobj, hgr]

/-- Registered group used by the C6 witness. -/
def groupC6 : Group := { Name := "g", LocalPath := "assets", FullPath := "d/assets" }

/-- Claim C6 witness: the theorem applied to the concrete statement
`y = g.String("x.txt")` with `g` registered (an asset owned by the group is
appended), discharging the hypotheses at that input. -/
theorem C6_witness :
    resolveStmt (mkEnv [] []) "d/x.go"
        ({ Caller := "d/x.go", PackageName := "main", BaseDir := "d",
           Assets := [], Groups := [] },
         [("g", groupC6)], none)
        (callAssignTo "y" "g" "String" "x.txt") =
      ({ Caller := "d/x.go", PackageName := "main", BaseDir := "d",
         Assets := [{ Name := "x.txt", AssetPath := "x.txt", Group := some groupC6 }],
         Groups := [] },
       [("g", groupC6)], none) := by
  have h := (C6_group_item_resolution (mkEnv [] []) "d/x.go"
      { Caller := "d/x.go", PackageName := "main", BaseDir := "d",
        Assets := [], Groups := [] }
      [("g", groupC6)] none
      (callAssignTo "y" "g" "String" "x.txt")
      { LHS := "y", RHS := { Obj := "g", Method := "String", Path := "x.txt" } }
      (by rfl) (by decide)).1 groupC6 (by rfl)
  simpa using h

/-! ## Claim C9 -/

/-- Claim C9 scenario: a file whose first statement is a `mewn.Group` declaration
for which `filepath.Abs` fails, followed by a `mewn.String` declaration. -/
def envC9 : Env :=
  mkEnv [("d/n.go",
    { packageName := "main",
      stmts := [callAssignTo "g" "mewn" "Group" "assets",
                callAssign "mewn" "String" "x.txt"] })] ["d/assets"]

/-- Claim C9 counterexample: the claim says a failed absolute-path resolution
terminates the file's tree walk early, so the statement after the failing
`Group` declaration would not be processed.  In the code, the callback's
`return false` only prunes the failing assignment's own sub-expressions
(`ast.Inspect` continues with the node's siblings), so the later
`mewn.String("x.txt")` statement IS processed: the returned bundle contains
that asset, which under the claim's early-termination reading would be
absent. -/
theorem C9_counterexample_walk_continues :
    GetReferencedAssets envC9 ["d/n.go"] =
      Except.ok [{ Caller := "d/n.go", PackageName := "main", BaseDir := "d",
                   Assets := [{ Name := "x.txt", AssetPath := "x.txt", Group := none }],
                   Groups := [] }] := by
  rfl

/-- Claim C9 (amended): a `mewn.Group` declaration whose absolute-path resolution
fails is skipped silently — no `Group` is recorded, no error is produced,
and the walk state is untouched — but processing of the file does NOT
terminate: the fold over the remaining statements continues exactly as if
the failing statement were absent, and the bundle built from the rest of
the file is still returned. -/
theorem C9_amended_failed_abs_skips_stmt (env : Env) (fn : String)
    (acc : ReferencedAssets × List (String × Group) × Option ScanError)
    (s : AstAssignStmt) (t : AssignStmt) (rest : List AstAssignStmt)
    (hp : ParseAssignment s = some t)
    (hobj : t.RHS.Obj = "mewn") (hm : t.RHS.Method = "Group")
    (habs : env.abs (env.join (env.dir fn) t.RHS.Path) = none) :
    List.foldl (resolveStmt env fn) acc (s :: rest) =
      List.foldl (resolveStmt env fn) acc rest := by
  have hstep : resolveStmt env fn acc s = acc := by
    obtain ⟨b, tbl, errv⟩ := acc
    simp [resolveStmt, hp, hobj, hm, habs]
  rw [List.foldl_cons, hstep]

/-- Claim C9 witness: the amended theorem applied to the concrete failing
`g = mewn.Group("assets")` statement of `envC9` followed by the
`mewn.String("x.txt")` statement. -/
theorem C9_amended_witness :
    List.foldl (resolveStmt envC9 "d/n.go")
        ({ Caller := "d/n.go", PackageName := "main", BaseDir := "d",
           Assets := [], Groups := [] }, [], none)
        [callAssignTo "g" "mewn" "Group" "assets",
         callAssign "mewn" "String" "x.txt"] =
      List.foldl (resolveStmt envC9 "d/n.go")
        ({ Caller := "d/n.go", PackageName := "main", BaseDir := "d",
           Assets := [], Groups := [] }, [], none)
        [callAssign "mewn" "String" "x.txt"] := by
  exact C9_amended_failed_abs_skips_stmt envC9 "d/n.go" _
    (callAssignTo "g" "mewn" "Group" "assets")
    { LHS := "g", RHS := { Obj := "mewn", Method := "Group", Path := "assets" } }
    [callAssign "mewn" "String" "x.txt"] (by rfl) rfl rfl (by rfl)

/-! ## Claim C10 -/

/-- Claim C10: a second `mewn.Group` declaration binding an already-registered
identifier overwrites the scan-wide name→Group table entry (so subsequent
item calls on that identifier resolve to the most recent group, by
`mapGet_mapUpd_self`), while the new group is appended to the current
bundle's `Groups` without removing anything already recorded — so both
group objects remain in their respective bundles' collections. -/
theorem C10_group_redeclaration_shadows (env : Env) (fn : String)
    (b : ReferencedAssets) (tbl : List (String × Group)) (errv : Option ScanError)
    (s : AstAssignStmt) (t : AssignStmt) (g₀ : Group) (fullPath : String)
    (hp : ParseAssignment s = some t)
    (hobj : t.RHS.Obj = "mewn") (hm : t.RHS.Method = "Group")
    (habs : env.abs (env.join (env.dir fn) t.RHS.Path) = some fullPath)
    (hold : mapGet tbl t.LHS = some g₀) :
    resolveStmt env fn (b, tbl, errv) s =
      ({ b with Groups := b.Groups ++
          [{ Name := t.LHS, LocalPath := t.RHS.Path, FullPath := fullPath }] },
       mapUpd tbl t.LHS { Name := t.LHS, LocalPath := t.RHS.Path, FullPath := fullPath },
       errv) ∧
    mapGet (mapUpd tbl t.LHS
        { Name := t.LHS, LocalPath := t.RHS.Path, FullPath := fullPath }) t.LHS =
      some { Name := t.LHS, LocalPath := t.RHS.Path, FullPath := fullPath } := by
  constructor
  · simp [resolveStmt, hp, hobj, hm, habs]
  · exact mapGet_mapUpd_self _ _ _

/-- The group registered first in the C10 witness scenario. -/
def groupC10 : Group := { Name := "g", LocalPath := "assets", FullPath := "d/assets" }

/-- Claim C10 witness: the theorem applied to a concrete redeclaration
`g = mewn.Group("assets3")` while the table already binds `g`:
the table entry is overwritten and both groups stay in the bundle. -/
theorem C10_witness :
    resolveStmt (mkEnv [] []) "d/g.go"
        ({ Caller := "d/g.go", PackageName := "main", BaseDir := "d",
           Assets := [], Groups := [groupC10] },
         [("g", groupC10)], none)
        (callAssignTo "g" "mewn" "Group" "assets3") =
      ({ Caller := "d/g.go", PackageName := "main", BaseDir := "d",
         Assets := [],
         Groups := [groupC10,
                    { Name := "g", LocalPath := "assets3", FullPath := "d/assets3" }] },
       [("g", { Name := "g", LocalPath := "assets3", FullPath := "d/assets3" })], none) := by
  have h := C10_group_redeclaration_shadows (mkEnv [] []) "d/g.go"
      { Caller := "d/g.go", PackageName := "main", BaseDir := "d",
        Assets := [], Groups := [groupC10] }
      [("g", groupC10)] none
      (callAssignTo "g" "mewn" "Group" "assets3")
      { LHS := "g", RHS := { Obj := "mewn", Method := "Group", Path := "assets3" } }
      groupC10 "d/assets3" (by rfl) rfl rfl (by rfl) (by rfl)
  simpa [mapUpd] using h.1

/-! ## Claim C4 -/

/-- Claim C4 scenario: two files in directory `p` with different package names. -/
def envC4 : Env :=
  mkEnv [("p/a.go", { packageName := "main", stmts := [] }),
         ("p/b.go", { packageName := "other", stmts := [] })] []

/-- Claim C4 counterexample: after scanning only `p/a.go` the bundle's
`PackageName` is `"main"`; scanning `p/a.go` then `p/b.go` leaves the same
bundle with `PackageName = "other"` — processing the later file in the same
directory changed the bundle's `PackageName`, contradicting the claim that
both `Caller` and `PackageName` are left unchanged. -/
theorem C4_counterexample_package_name_overwritten :
    GetReferencedAssets envC4 ["p/a.go"] =
      Except.ok [{ Caller := "p/a.go", PackageName := "main", BaseDir := "p",
                   Assets := [], Groups := [] }] ∧
    GetReferencedAssets envC4 ["p/a.go", "p/b.go"] =
      Except.ok [{ Caller := "p/a.go", PackageName := "other", BaseDir := "p",
                   Assets := [], Groups := [] },
                 { Caller := "p/a.go", PackageName := "other", BaseDir := "p",
                   Assets := [], Groups := [] }] := by
  exact ⟨rfl, rfl⟩

/-- Claim C4 (amended): when a later file is processed for a directory whose
bundle already exists, the bundle's `Caller` (and `BaseDir`) are left
unchanged — first file wins — but `PackageName` is overwritten with the
later file's package name (the `*ast.File` case assigns it on every file
visit), so for `PackageName` the last file wins, not the first. -/
theorem C4_amended_caller_fixed_package_overwritten (env : Env) (fn : String)
    (file : GoFile) (m : List (String × ReferencedAssets))
    (g : List (String × Group)) (b : ReferencedAssets)
    (hb : mapGet m (env.dir fn) = some b) :
    mapGet (scanStep env fn file m g).1 (env.dir fn) =
      some (processFile env fn file b g).1 ∧
    (processFile env fn file b g).1.Caller = b.Caller ∧
    (processFile env fn file b g).1.BaseDir = b.BaseDir ∧
    (processFile env fn file b g).1.PackageName = file.packageName := by
  refine ⟨?_, (processFile_fields env fn file b g).1,
    (processFile_fields env fn file b g).2.1,
    (processFile_fields env fn file b g).2.2⟩
  unfold scanStep
  simp only [hb]
  exact mapGet_mapUpd_self _ _ _

/-- The directory `p` bundle after the first C4 file. -/
def bundleC4 : ReferencedAssets :=
  { Caller := "p/a.go", PackageName := "main", BaseDir := "p",
    Assets := [], Groups := [] }

/-- Claim C4 witness: the amended theorem applied to the second C4 file with the
first file's bundle already stored under directory `p`. -/
theorem C4_amended_witness :
    mapGet (scanStep envC4 "p/b.go" { packageName := "other", stmts := [] }
        [("p", bundleC4)] []).1 (envC4.dir "p/b.go") =
      some (processFile envC4 "p/b.go" { packageName := "other", stmts := [] }
        bundleC4 []).1 ∧
    (processFile envC4 "p/b.go" { packageName := "other", stmts := [] }
        bundleC4 []).1.Caller = "p/a.go" ∧
    (processFile envC4 "p/b.go" { packageName := "other", stmts := [] }
        bundleC4 []).1.PackageName = "other" := by
  have h := C4_amended_caller_fixed_package_overwritten envC4 "p/b.go"
    { packageName := "other", stmts := [] } [("p", bundleC4)] [] bundleC4 (by rfl)
  exact ⟨h.1, h.2.1, h.2.2.2⟩

/-! ## Claim C3 -/

/-- Claim C3 scenario: two files in the same directory `d`. -/
def envC3 : Env :=
  mkEnv [("d/a.go", { packageName := "main",
                      stmts := [callAssign "mewn" "String" "a.txt"] }),
         ("d/b.go", { packageName := "main",
                      stmts := [callAssign "mewn" "String" "b.txt"] })] []

/-- The merged directory `d` bundle produced by the C3 scenario. -/
def bundleC3 : ReferencedAssets :=
  { Caller := "d/a.go", PackageName := "main", BaseDir := "d",
    Assets := [{ Name := "a.txt", AssetPath := "a.txt", Group := none },
               { Name := "b.txt", AssetPath := "b.txt", Group := none }],
    Groups := [] }

/-- Claim C3 counterexample: the claim says the returned list contains each
directory's bundle exactly once.  Scanning two files of the same directory
returns a list of length two whose entries are the same merged bundle —
`result = append(result, thisAssetBundle)` runs once per file, not once per
directory. -/
theorem C3_counterexample_bundle_listed_twice :
    GetReferencedAssets envC3 ["d/a.go", "d/b.go"] =
      Except.ok [bundleC3, bundleC3] := by
  rfl

/-- Claim C3 (amended): on a successful scan the returned list has one entry per
input file, in input order; files sharing a directory contribute the same
(merged, final-state) bundle — so a directory's bundle appears once per
file from that directory, not exactly once — while files from different
directories contribute distinct bundles (their `BaseDir`s differ). -/
theorem C3_amended_one_entry_per_file (env : Env) (filenames : List String)
    (bundles : List ReferencedAssets)
    (h : GetReferencedAssets env filenames = Except.ok bundles) :
    bundles.length = filenames.length ∧
    (∀ (i j : Nat) (fi fj : String), filenames[i]? = some fi →
      filenames[j]? = some fj →
      env.dir fi = env.dir fj → bundles[i]? = bundles[j]?) ∧
    (∀ (i j : Nat) (fi fj : String), filenames[i]? = some fi →
      filenames[j]? = some fj →
      env.dir fi ≠ env.dir fj → bundles[i]? ≠ bundles[j]?) := by
  unfold GetReferencedAssets at h
  cases hs : scanFiles env filenames [] [] [] with
  | error e =>
      rw [hs] at h
      cases h
  | ok p =>
      obtain ⟨dirs', m'⟩ := p
      rw [hs] at h
      have hb : bundles = dirs'.map (fun d => (mapGet m' d).getD defaultBundle) := by
        cases h; rfl
      obtain ⟨hdirs, hmok, hmono, hpres⟩ :=
        scanFiles_ok_spec env filenames [] [] [] dirs' m' hs mapOk_nil
      have hdirs' : dirs' = filenames.map env.dir := by simpa using hdirs
      subst hb
      subst hdirs'
      refine ⟨by simp, ?_, ?_⟩
      · intro i j fi fj hfi hfj hdir
        rw [List.getElem?_map, List.getElem?_map, List.getElem?_map,
            List.getElem?_map, hfi, hfj]
        simp [hdir]
      · intro i j fi fj hfi hfj hdir heq
        rw [List.getElem?_map, List.getElem?_map, List.getElem?_map,
            List.getElem?_map, hfi, hfj] at heq
        simp only [Option.map_some', Option.some.injEq] at heq
        obtain ⟨bi, hbi⟩ := Option.isSome_iff_exists.mp
          (hpres fi (List.getElem?_mem hfi))
        obtain ⟨bj, hbj⟩ := Option.isSome_iff_exists.mp
          (hpres fj (List.getElem?_mem hfj))
        rw [hbi, hbj] at heq
        simp only [Option.getD_some] at heq
        exact hdir (((hmok _ _ hbi).symm.trans (congrArg ReferencedAssets.BaseDir heq)).trans
          (hmok _ _ hbj))

/-- Claim C3 witness: the amended theorem applied to the two same-directory files
of `envC3`: the result has one entry per file and the two entries coincide. -/
theorem C3_amended_witness :
    ([bundleC3, bundleC3] : List ReferencedAssets).length = 2 ∧
    ([bundleC3, bundleC3] : List ReferencedAssets)[0]? =
      ([bundleC3, bundleC3] : List ReferencedAssets)[1]? := by
  have h := C3_amended_one_entry_per_file envC3 ["d/a.go", "d/b.go"]
    [bundleC3, bundleC3] (by rfl)
  exact ⟨h.1, h.2.1 0 1 "d/a.go" "d/b.go" rfl rfl (by rfl)⟩

/-! ## Claim C8 -/

/-- Claim C8: if the file at position `i` fails to parse while every earlier file
parses, `GetReferencedAssets` aborts immediately with that file's parse
error: the result is the error alone (Go returns `nil, err`), with no
bundle list produced for files before or after it in the sequence. -/
theorem C8_parse_failure_aborts_scan (env : Env) (filenames : List String)
    (i : Nat) (f : String) (e : ScanError)
    (h1 : filenames[i]? = some f)
    (h2 : env.parseFile f = Except.error e)
    (h3 : ∀ (j : Nat) (fj : String), j < i → filenames[j]? = some fj →
      ∃ gf, env.parseFile fj = Except.ok gf) :
    GetReferencedAssets env filenames = Except.error e := by
  unfold GetReferencedAssets
  rw [scanFiles_parse_error env filenames i f e [] [] [] h1 h2 h3]

/-- Claim C8 scenario: `ok.go` parses, `bad.go` does not. -/
def envC8 : Env :=
  mkEnv [("ok.go", { packageName := "main",
                     stmts := [callAssign "mewn" "String" "a.txt"] })] []

/-- Claim C8 witness: the theorem applied to a scan whose second file fails to
parse: the scan returns exactly that file's parse error. -/
theorem C8_witness :
    GetReferencedAssets envC8 ["ok.go", "bad.go"] =
      Except.error (ScanError.parseError "bad.go") := by
  refine C8_parse_failure_aborts_scan envC8 ["ok.go", "bad.go"] 1 "bad.go"
    (ScanError.parseError "bad.go") rfl (by rfl) ?_
  intro j fj hj hfj
  match j, hj with
  | 0, _ =>
      simp only [List.getElem?_cons_zero, Option.some.injEq] at hfj
      subst hfj
      exact ⟨{ packageName := "main",
               stmts := [callAssign "mewn" "String" "a.txt"] }, rfl⟩

end Mewn
